import Mathlib

/-
  Verification of the collaborative-editor server against its specification.

  The definitions below are a shallow embedding of the server-side code:
  - `appendUpdate`, `fetchUpdatesAfter`, `markSnapshot` embed `server/db/updates.js`
  - `validateLinkToken`, `rotateShareLink` embed `server/db/documents.js`
  - `canEdit`, the `yjs-update` handler, `ensureCacheLoaded`, the `doc-init`
    computation and the snapshot policy embed the realtime server entry file
  - the rate limiter Lua script and `checkLimit` embed the execution queue
  - `executePythonPath` / `executeErrorStatusCode` embed the executor dispatch
    and the `/api/execute` error mapping.

  The database is modelled per document: a `document_state` row and the
  `document_updates` rows for one document.  Update blobs are opaque byte
  strings, modelled as `String`.
-/

namespace CollabEditor

/-- Opaque binary update blobs (JS Buffers) are modelled as strings. -/
abbrev Bytes := String

/-- Row of the `document_state` table for one document
(`latest_snapshot_seq`, `latest_snapshot_r2_key`, `latest_update_seq`). -/
structure DocumentState where
  latestSnapshotSeq : Nat
  latestSnapshotR2Key : Option String
  latestUpdateSeq : Nat
  deriving Repr, DecidableEq

/-- Row of the `document_updates` table: `(seq, actor_user_id, update)` for one document. -/
structure UpdateRow where
  seq : Nat
  actorUserId : Option String
  update : Bytes
  deriving Repr, DecidableEq

/-- The per-document persistent store: the optional `document_state` row and
the update-log rows.  The log list is kept in insertion order; `appendUpdate`
always inserts a sequence larger than every present one, so the list is in
ascending `seq` order, matching the SQL `order by seq asc`. -/
structure UpdatesDb where
  state : Option DocumentState
  log : List UpdateRow
  deriving Repr, DecidableEq

/-- Embeds `fetchUpdatesAfter` (`updates.js`): entries with sequence strictly
greater than `afterSeq`. -/
def fetchUpdatesAfter (db : UpdatesDb) (afterSeq : Nat) : List UpdateRow :=
  db.log.filter (fun r => afterSeq < r.seq)

/-- Embeds `appendUpdate` (`updates.js`): in one transaction, read
`latest_update_seq` (with `for update`), fail with `document_state_missing`
if the row is absent, insert the update row at `latest_update_seq + 1` and
write the new counter back.  The whole transaction is one transition here;
`none` models the rolled-back 404 path. -/
def appendUpdate (db : UpdatesDb) (actorUserId : Option String) (updateBytes : Bytes) :
    Option (UpdatesDb × Nat) :=
  match db.state with
  | none => none
  | some st =>
    let nextSeq := st.latestUpdateSeq + 1
    some ({ state := some { st with latestUpdateSeq := nextSeq },
            log := db.log ++ [⟨nextSeq, actorUserId, updateBytes⟩] }, nextSeq)

/-- Embeds `markSnapshot` (`updates.js`): advance the snapshot pointer and, when
pruning is enabled, delete entries with `seq ≤ snapshotSeq`. -/
def markSnapshot (db : UpdatesDb) (snapshotSeq : Nat) (r2Key : String)
    (pruneUpdatesBeforeSnapshot : Bool) : UpdatesDb :=
  { state := db.state.map (fun st =>
      { st with latestSnapshotSeq := snapshotSeq, latestSnapshotR2Key := some r2Key }),
    log := if pruneUpdatesBeforeSnapshot then
             db.log.filter (fun r => ¬ r.seq ≤ snapshotSeq)
           else db.log }

/-- Maximum sequence present in the update log, `0` if the log is empty. -/
def maxSeq (log : List UpdateRow) : Nat :=
  log.foldr (fun r m => max r.seq m) 0

/-- The spec invariant: `latest_update_seq` equals the maximum sequence in the
update log (or 0 if none), whenever the state row exists. -/
def seqInvariant (db : UpdatesDb) : Prop :=
  ∀ st, db.state = some st → st.latestUpdateSeq = maxSeq db.log

/-- Run a list of appends in order; collect the new store and the assigned
sequence of each successful append. -/
def runAppends (db : UpdatesDb) : List (Option String × Bytes) → UpdatesDb × List Nat
  | [] => (db, [])
  | op :: rest =>
    match appendUpdate db op.1 op.2 with
    | none => runAppends db rest
    | some (db1, s) =>
      let r := runAppends db1 rest
      (r.1, s :: r.2)

theorem maxSeq_append_singleton (log : List UpdateRow) (r : UpdateRow) :
    maxSeq (log ++ [r]) = max (maxSeq log) r.seq := by
  induction log with
  | nil => simp [maxSeq]
  | cons a l ih =>
    simp only [maxSeq, List.cons_append, List.foldr_cons] at *
    rw [ih]
    omega

theorem runAppends_assignment (db : UpdatesDb) (st : DocumentState)
    (hdb : db.state = some st) (hinv : seqInvariant db)
    (ops : List (Option String × Bytes)) :
    (runAppends db ops).2 = List.range' (st.latestUpdateSeq + 1) ops.length ∧
    seqInvariant (runAppends db ops).1 := by
  induction ops generalizing db st with
  | nil =>
    exact ⟨by simp [runAppends], by simpa [runAppends] using hinv⟩
  | cons op rest ih =>
    have happ : appendUpdate db op.1 op.2 =
        some ({ state := some { st with latestUpdateSeq := st.latestUpdateSeq + 1 },
                log := db.log ++ [⟨st.latestUpdateSeq + 1, op.1, op.2⟩] },
              st.latestUpdateSeq + 1) := by
      simp [appendUpdate, hdb]
    have hinv1 : seqInvariant
        { state := some { st with latestUpdateSeq := st.latestUpdateSeq + 1 },
          log := db.log ++ [⟨st.latestUpdateSeq + 1, op.1, op.2⟩] } := by
      intro st' hst'
      have hst'' : st' = { st with latestUpdateSeq := st.latestUpdateSeq + 1 } :=
        (Option.some.inj hst').symm
      subst hst''
      have hmax := hinv st hdb
      simp only [maxSeq_append_singleton]
      omega
    have ihr := ih _ { st with latestUpdateSeq := st.latestUpdateSeq + 1 } rfl hinv1
    constructor
    · show (runAppends db (op :: rest)).2 = _
      simp only [runAppends, happ]
      rw [ihr.1, List.length_cons, List.range'_succ]
    · show seqInvariant (runAppends db (op :: rest)).1
      simp only [runAppends, happ]
      exact ihr.2

/-- C1: for every document with a Document State row, `appendUpdate` assigns
sequence `latest_update_seq + 1` and updates the counter in the same atomic
transaction (one transition of the model), so after any sequence of appends
the assigned sequences are exactly the consecutive integers starting at the
initial counter plus one: they are pairwise distinct (no two appends receive
the same sequence), and `latest_update_seq` again equals the maximum sequence
present in the update log (or 0 if the log is empty). -/
theorem appendUpdate_c1 (db : UpdatesDb) (st : DocumentState)
    (hdb : db.state = some st) (hinv : seqInvariant db)
    (ops : List (Option String × Bytes)) :
    (runAppends db ops).2 = List.range' (st.latestUpdateSeq + 1) ops.length ∧
    seqInvariant (runAppends db ops).1 ∧
    (runAppends db ops).2.Nodup := by
  obtain ⟨h1, h2⟩ := runAppends_assignment db st hdb hinv ops
  refine ⟨h1, h2, ?_⟩
  rw [h1]
  exact List.nodup_range' _ _ _ (by omega)

/-- In-memory per-document cache (the `docCache` entry of the realtime server):
the Y.Doc is represented by the list of update blobs applied to it, in order. -/
structure DocCache where
  applied : List Bytes
  loaded : Bool
  lastSeqApplied : Nat
  lastSnapshotSeq : Nat
  pendingUpdates : Nat
  lastSnapshotAt : Nat
  deriving Repr, DecidableEq

/-- Errors a load can surface.  `downloadFailed` models the snapshot download
throwing (the promise rejects and the caller sees that rejection);
`inconsistentState` is the error kind named by the spec's taxonomy — it is
included so the spec's claim is statable, the implementation never produces it. -/
inductive LoadError
  | downloadFailed
  | inconsistentState
  deriving Repr, DecidableEq

/-- Embeds `ensureCacheLoaded` of the realtime server: read the state row, try
to download the snapshot when a pointer exists (a throwing download rejects the
load), apply the snapshot if bytes were obtained — otherwise only log a warning
— then replay the tail after the snapshot sequence (or after 0 when no snapshot
bytes), and mark the cache loaded. -/
def ensureCacheLoaded (db : UpdatesDb) (download : String → Except Unit (Option Bytes))
    (now : Nat) : Except LoadError DocCache :=
  let snapshotSeq := (db.state.map (·.latestSnapshotSeq)).getD 0
  let fetched : Except LoadError (Option Bytes) :=
    match db.state.bind (·.latestSnapshotR2Key) with
    | none => .ok none
    | some key =>
      match download key with
      | .error _ => .error .downloadFailed
      | .ok b => .ok b
  match fetched with
  | .error e => .error e
  | .ok snapshotBytes =>
    let afterSeq := match snapshotBytes with | some _ => snapshotSeq | none => 0
    let updates := fetchUpdatesAfter db afterSeq
    let lastSnap := match snapshotBytes with | some _ => snapshotSeq | none => 0
    .ok { applied := (snapshotBytes.map (fun b => [b])).getD [] ++ updates.map (·.update)
          loaded := true
          lastSeqApplied := ((updates.getLast?).map (·.seq)).getD lastSnap
          lastSnapshotSeq := lastSnap
          pendingUpdates := 0
          lastSnapshotAt := now }

/-- Store with a dangling snapshot pointer at sequence 3 and a pruned log:
entries with sequence ≤ 3 are absent, only the tail entry 4 remains. -/
def c2PrunedDb : UpdatesDb :=
  { state := some ⟨3, some "docs/d1/snapshots/3.bin", 4⟩,
    log := [⟨4, some "alice", "u4"⟩] }

/-- A download that yields no bytes (R2/B2 unconfigured or object unreadable
without throwing): the snapshot bytes cannot be fetched. -/
def c2NoBytes : String → Except Unit (Option Bytes) := fun _ => .ok none

/-- C2 counterexample: with the snapshot pointer present, its bytes
unfetchable, and the log pruned, the load does NOT surface `InconsistentState`;
it returns a loaded cache rebuilt from the remaining tail (the one update with
sequence 4), contradicting the claim. -/
theorem ensureCacheLoaded_c2_counterexample :
    ensureCacheLoaded c2PrunedDb c2NoBytes 7 =
      .ok { applied := ["u4"], loaded := true, lastSeqApplied := 4,
            lastSnapshotSeq := 0, pendingUpdates := 0, lastSnapshotAt := 7 } := by
  rfl

/-- C2 amended: whenever the snapshot download yields no bytes (including when
the pointer exists and the log has been pruned), the load falls back to a full
replay from sequence 0 of whatever entries remain and marks the cache loaded;
no error — in particular no `InconsistentState` — is surfaced.  Moreover no
input at all makes the load surface `InconsistentState`: a load either
succeeds or fails with the download's own error. -/
theorem ensureCacheLoaded_c2_amended (db : UpdatesDb)
    (download : String → Except Unit (Option Bytes)) (now : Nat)
    (hnb : ∀ key, db.state.bind (·.latestSnapshotR2Key) = some key →
      download key = .ok none) :
    ensureCacheLoaded db download now =
      .ok { applied := (fetchUpdatesAfter db 0).map (·.update)
            loaded := true
            lastSeqApplied := (((fetchUpdatesAfter db 0).getLast?).map (·.seq)).getD 0
            lastSnapshotSeq := 0
            pendingUpdates := 0
            lastSnapshotAt := now } ∧
    (∀ db' dl' now', ensureCacheLoaded db' dl' now' ≠
      Except.error LoadError.inconsistentState) := by
  constructor
  · unfold ensureCacheLoaded
    cases hkey : db.state.bind (·.latestSnapshotR2Key) with
    | none => simp
    | some key => simp [hnb key hkey]
  · intro db' dl' now'
    unfold ensureCacheLoaded
    cases hkey : db'.state.bind (·.latestSnapshotR2Key) with
    | none => simp
    | some key =>
      cases hdl : dl' key with
      | error e => simp [hdl]
      | ok b => simp [hdl]

/-- Witness for C2's amended theorem at the pruned store. -/
theorem ensureCacheLoaded_c2_witness :
    ensureCacheLoaded c2PrunedDb c2NoBytes 7 =
      .ok { applied := (fetchUpdatesAfter c2PrunedDb 0).map (·.update)
            loaded := true
            lastSeqApplied :=
              (((fetchUpdatesAfter c2PrunedDb 0).getLast?).map (·.seq)).getD 0
            lastSnapshotSeq := 0
            pendingUpdates := 0
            lastSnapshotAt := 7 } ∧
    (∀ db' dl' now', ensureCacheLoaded db' dl' now' ≠
      Except.error LoadError.inconsistentState) :=
  ensureCacheLoaded_c2_amended c2PrunedDb c2NoBytes 7 (fun _ _ => rfl)

/-- Modelled from the spec: the Yjs CRDT library is not part of the repository
source.  Per the glossary, a document carries a text; `getText('content')`
with an insert at a position edits that text.  A `YDoc` is its text. -/
structure YDoc where
  text : String
  deriving Repr, DecidableEq

/-- Modelled from the spec: a fresh `new Y.Doc()` holds the empty text. -/
def YDoc.empty : YDoc := ⟨""⟩

/-- Modelled from the spec: `getText('content').insert(pos, s)` splices `s`
into the text at `pos`. -/
def textInsert (d : YDoc) (pos : Nat) (s : String) : YDoc :=
  ⟨d.text.take pos ++ s ++ d.text.drop pos⟩

/-- Modelled from the spec: `Y.encodeStateAsUpdate` encodes the full CRDT state
as one update blob; we encode the text itself. -/
def encodeStateAsUpdate (d : YDoc) : Bytes := d.text

/-- Modelled from the spec: `Y.applyUpdate` merges an update into a document;
on the replay paths verified here updates are applied in causal order starting
from a fresh document, where merging appends the new content. -/
def applyUpdate (d : YDoc) (u : Bytes) : YDoc := ⟨d.text ++ u⟩

/-- Embeds the `POST /api/documents` handler: when `initialContent` is a
non-empty string, insert it into a fresh Y.Doc and encode that state as the
initial update bytes; otherwise no initial update is produced. -/
def buildInitialUpdateBytes (initialContent : Option String) : Option Bytes :=
  match initialContent with
  | some s => if 0 < s.length then some (encodeStateAsUpdate (textInsert YDoc.empty 0 s))
              else none
  | none => none

/-- Embeds `createDocumentForUser` (`documents.js`), restricted to the
per-document update store it creates: the `document_state` row starts at
`(0, null, 0)`; when initial update bytes are supplied they are written as
sequence 1 and `latest_update_seq` is set to 1, all in one transaction. -/
def createDocumentUpdatesDb (ownerId : String) (initialUpdateBytes : Option Bytes) :
    UpdatesDb :=
  match initialUpdateBytes with
  | none => { state := some ⟨0, none, 0⟩, log := [] }
  | some u => { state := some ⟨0, none, 1⟩, log := [⟨1, some ownerId, u⟩] }

/-- The `doc-init` message sent to a joining peer. -/
structure DocInit where
  snapshot : Option Bytes
  snapshotSeq : Nat
  updates : List (Nat × Bytes)
  deriving Repr, DecidableEq

/-- Embeds the `join-document` handler's init computation: read the state row,
download the snapshot when a pointer exists (a throwing download fails the
join), fall back to `effectiveSnapshotSeq = 0` when the pointer is set but no
bytes were obtained, and send the updates after the effective sequence. -/
def joinDocInit (db : UpdatesDb) (download : String → Except Unit (Option Bytes)) :
    Except Unit DocInit :=
  let snapshotSeq := (db.state.map (·.latestSnapshotSeq)).getD 0
  let fetched : Except Unit (Option Bytes) :=
    match db.state.bind (·.latestSnapshotR2Key) with
    | none => .ok none
    | some key => download key
  match fetched with
  | .error e => .error e
  | .ok snapshot =>
    let effectiveSnapshotSeq :=
      if snapshot.isNone && 0 < snapshotSeq then 0 else snapshotSeq
    .ok { snapshot
          snapshotSeq := effectiveSnapshotSeq
          updates := (fetchUpdatesAfter db effectiveSnapshotSeq).map
            (fun r => (r.seq, r.update)) }

/-- Embeds the client's `doc-init` handler (`CodeEditor.tsx`): a fresh Y.Doc,
apply the snapshot if present, then replay the updates in order. -/
def clientInitDoc (init : DocInit) : YDoc :=
  let d0 := match init.snapshot with
    | some b => applyUpdate YDoc.empty b
    | none => YDoc.empty
  init.updates.foldl (fun d u => applyUpdate d u.2) d0

/-- C8 counterexample: with `initialContent = ""` the creation handler's guard
`initialContent.length > 0` fails, so no initial update is built and the
update log of the created document is empty — no update with sequence 1
carrying the encoding of `""` is persisted, contrary to the claim's "for every
string s". -/
theorem createDocument_c8_counterexample :
    buildInitialUpdateBytes (some "") = none ∧
    (createDocumentUpdatesDb "alice" (buildInitialUpdateBytes (some ""))).log = [] := by
  constructor <;> rfl

/-- C8 amended: for every NON-EMPTY string `s`, creating a document with
`initialContent = s` persists the CRDT encoding of `s` as the update with
sequence 1 (and sets `latest_update_seq` to 1), the join of a fresh client
receives `doc-init` with no snapshot, snapshot sequence 0 and exactly that
update, and replaying the init on the client reconstructs text equal to `s`. -/
theorem createJoin_c8_amended (s ownerId : String) (hs : 0 < s.length)
    (download : String → Except Unit (Option Bytes)) :
    buildInitialUpdateBytes (some s) = some s ∧
    createDocumentUpdatesDb ownerId (buildInitialUpdateBytes (some s)) =
      { state := some ⟨0, none, 1⟩, log := [⟨1, some ownerId, s⟩] } ∧
    joinDocInit (createDocumentUpdatesDb ownerId (buildInitialUpdateBytes (some s)))
        download = .ok { snapshot := none, snapshotSeq := 0, updates := [(1, s)] } ∧
    (clientInitDoc { snapshot := none, snapshotSeq := 0, updates := [(1, s)] }).text
      = s := by
  have henc : buildInitialUpdateBytes (some s) = some s := by
    have h1 : ("" : String).take 0 = "" := rfl
    have h2 : ("" : String).drop 0 = "" := rfl
    simp [buildInitialUpdateBytes, hs, encodeStateAsUpdate, textInsert, YDoc.empty, h1, h2]
  refine ⟨henc, ?_, ?_, ?_⟩
  · rw [henc]; rfl
  · rw [henc]
    simp [joinDocInit, createDocumentUpdatesDb, fetchUpdatesAfter]
  · simp [clientInitDoc, applyUpdate, YDoc.empty]

/-- Witness for C8's amended theorem at `s = "hello"`. -/
theorem createJoin_c8_witness :
    buildInitialUpdateBytes (some "hello") = some "hello" ∧
    createDocumentUpdatesDb "alice" (buildInitialUpdateBytes (some "hello")) =
      { state := some ⟨0, none, 1⟩, log := [⟨1, some "alice", "hello"⟩] } ∧
    joinDocInit (createDocumentUpdatesDb "alice" (buildInitialUpdateBytes (some "hello")))
        (fun _ => .ok none) =
      .ok { snapshot := none, snapshotSeq := 0, updates := [(1, "hello")] } ∧
    (clientInitDoc { snapshot := none, snapshotSeq := 0, updates := [(1, "hello")] }).text
      = "hello" :=
  createJoin_c8_amended "hello" "alice" (by decide) (fun _ => .ok none)

/-- A freshly created document store with an empty log (as produced by
`createDocumentForUser` without initial content). -/
def c1FreshDb : UpdatesDb := { state := some ⟨0, none, 0⟩, log := [] }

/-- Two appends used to instantiate `appendUpdate_c1`. -/
def c1Ops : List (Option String × Bytes) := [(some "alice", "u1"), (none, "u2")]

/-- Witness for C1: running two appends on a fresh store assigns sequences 1, 2. -/
theorem appendUpdate_c1_witness :
    (runAppends c1FreshDb c1Ops).2 = List.range' 1 2 ∧
    seqInvariant (runAppends c1FreshDb c1Ops).1 ∧
    (runAppends c1FreshDb c1Ops).2.Nodup :=
  appendUpdate_c1 c1FreshDb ⟨0, none, 0⟩ rfl
    (fun st hst => by cases hst; rfl) c1Ops

/-- The share-link columns of a `documents` row: `share_status` and
`link_share_token_hash`. -/
structure DocumentRow where
  shareStatus : String
  linkShareTokenHash : Option String
  deriving Repr, DecidableEq

/-- Embeds `validateLinkToken` (`documents.js`), parametrized by the hash
function (`sha256Hex` in the code): reject a missing token or a missing stored
hash, compare the hash of the presented token against the stored hash (the
code's `safeEqual` is a constant-time equality, semantically `=`), then grant
the role implied by `share_status`. -/
def validateLinkToken (hash : String → String) (doc : DocumentRow)
    (token : Option String) : Option String :=
  match token with
  | none => none
  | some t =>
    match doc.linkShareTokenHash with
    | none => none
    | some stored =>
      if hash t = stored then
        if doc.shareStatus = "public_link_view" then some "viewer"
        else if doc.shareStatus = "public_link_edit" then some "editor"
        else none
      else none

/-- The documents row written by a rotation that drew `freshToken` with `mode`. -/
def rotatedRow (hash : String → String) (freshToken mode : String) : DocumentRow :=
  { shareStatus := if mode = "edit" then "public_link_edit" else "public_link_view",
    linkShareTokenHash := some (hash freshToken) }

/-- Embeds `rotateShareLink` (`documents.js`): only an owner may rotate; a
fresh random token (here a parameter) is hashed, the row's share status and
token hash are overwritten, and the raw token is returned once.  The 403 error
path is the `Except.error` case. -/
def rotateShareLink (hash : String → String) (memberRole : Option String)
    (freshToken mode : String) : Except Nat (DocumentRow × String × String) :=
  if memberRole = some "owner" then
    .ok (rotatedRow hash freshToken mode,
         freshToken,
         if mode = "edit" then "public_link_edit" else "public_link_view")
  else .error 403

/-- C6: after two successive owner rotations drawing tokens `t1` then `t2`
(whose hashes differ — the fresh 192-bit tokens collide with negligible
probability), the stored row is exactly the second rotation's row; presenting
the first token yields no role, and presenting the second yields the role
configured by the second rotation's mode: editor for `edit`, viewer otherwise. -/
theorem rotateShareLink_c6 (hash : String → String) (role : Option String)
    (t1 t2 m1 m2 : String) (hrole : role = some "owner")
    (hne : hash t1 ≠ hash t2) :
    rotateShareLink hash role t1 m1 =
      .ok (rotatedRow hash t1 m1, t1,
           if m1 = "edit" then "public_link_edit" else "public_link_view") ∧
    rotateShareLink hash role t2 m2 =
      .ok (rotatedRow hash t2 m2, t2,
           if m2 = "edit" then "public_link_edit" else "public_link_view") ∧
    validateLinkToken hash (rotatedRow hash t2 m2) (some t1) = none ∧
    validateLinkToken hash (rotatedRow hash t2 m2) (some t2) =
      some (if m2 = "edit" then "editor" else "viewer") := by
  subst hrole
  refine ⟨by simp [rotateShareLink], by simp [rotateShareLink], ?_, ?_⟩
  · simp [validateLinkToken, rotatedRow, hne]
  · by_cases hm : m2 = "edit" <;>
      simp [validateLinkToken, rotatedRow, hm]

/-- Witness for C6 with the identity hash and distinct concrete tokens. -/
theorem rotateShareLink_c6_witness :
    rotateShareLink (fun s => s) (some "owner") "tokA" "view" =
      .ok (rotatedRow (fun s => s) "tokA" "view", "tokA", "public_link_view") ∧
    rotateShareLink (fun s => s) (some "owner") "tokB" "edit" =
      .ok (rotatedRow (fun s => s) "tokB" "edit", "tokB", "public_link_edit") ∧
    validateLinkToken (fun s => s) (rotatedRow (fun s => s) "tokB" "edit")
      (some "tokA") = none ∧
    validateLinkToken (fun s => s) (rotatedRow (fun s => s) "tokB" "edit")
      (some "tokB") = some "editor" := by
  have h := rotateShareLink_c6 (fun s => s) (some "owner") "tokA" "tokB"
    "view" "edit" rfl (by decide)
  simpa using h

/-- Embeds `canEdit` of the realtime server. -/
def canEdit (role : String) : Bool :=
  role = "owner" || role = "editor"

/-- The per-document entry of `socket.data.docs`: the role stored at join time. -/
structure SocketDocInfo where
  role : String
  deriving Repr, DecidableEq

/-- Effect of one `yjs-update` message: the possibly-updated store and the
broadcast (sequence, update) sent to the other peers in the room, if any. -/
structure YjsUpdateEffect where
  db : UpdatesDb
  broadcast : Option (Nat × Bytes)
  deriving Repr, DecidableEq

/-- Embeds the `yjs-update` handler of the realtime server, restricted to its
persistence and broadcast effects: drop the message when the socket has not
joined the document (`socket.data.docs[documentId]` missing) or when
`canEdit(role)` fails; otherwise append the update to the log and broadcast
`(seq, update)` to the room.  The `none` append result models the thrown
`document_state_missing`, which the surrounding catch turns into a logged
error with no broadcast. -/
def yjsUpdateHandler (db : UpdatesDb) (docInfo : Option SocketDocInfo)
    (actorUserId : Option String) (update : Bytes) : YjsUpdateEffect :=
  match docInfo with
  | none => { db, broadcast := none }
  | some info =>
    if canEdit info.role then
      match appendUpdate db actorUserId update with
      | none => { db, broadcast := none }
      | some (db1, seq) => { db := db1, broadcast := some (seq, update) }
    else { db, broadcast := none }

/-- C7: an update from a peer that has not joined the document, or whose
stored role is neither owner nor editor (e.g. viewer), is neither appended to
the update log nor broadcast — the store is unchanged and no broadcast is
emitted; while a joined peer whose role is owner or editor has its update
appended at the next sequence and broadcast with that sequence. -/
theorem yjsUpdate_c7 (db : UpdatesDb) (st : DocumentState) (info : SocketDocInfo)
    (actorUserId : Option String) (u : Bytes) (hdb : db.state = some st) :
    (∀ dOpt : Option SocketDocInfo,
      (∀ i, dOpt = some i → canEdit i.role = false) →
      yjsUpdateHandler db dOpt actorUserId u = { db, broadcast := none }) ∧
    (canEdit info.role = true →
      yjsUpdateHandler db (some info) actorUserId u =
        { db := { state := some { st with latestUpdateSeq := st.latestUpdateSeq + 1 },
                  log := db.log ++ [⟨st.latestUpdateSeq + 1, actorUserId, u⟩] },
          broadcast := some (st.latestUpdateSeq + 1, u) }) := by
  constructor
  · intro dOpt hno
    cases dOpt with
    | none => rfl
    | some i => simp [yjsUpdateHandler, hno i rfl]
  · intro hedit
    simp [yjsUpdateHandler, hedit, appendUpdate, hdb]

/-- Witness for C7: a viewer's update on a concrete store is dropped, and an
editor's update on the same store is appended at sequence 1 and broadcast. -/
theorem yjsUpdate_c7_witness :
    (yjsUpdateHandler c1FreshDb (some ⟨"viewer"⟩) (some "eve") "u" =
      { db := c1FreshDb, broadcast := none } ∧
     yjsUpdateHandler c1FreshDb none (some "eve") "u" =
      { db := c1FreshDb, broadcast := none }) ∧
    yjsUpdateHandler c1FreshDb (some ⟨"editor"⟩) (some "bob") "u" =
      { db := { state := some ⟨0, none, 1⟩, log := [⟨1, some "bob", "u"⟩] },
        broadcast := some (1, "u") } := by
  have h := yjsUpdate_c7 c1FreshDb ⟨0, none, 0⟩ ⟨"editor"⟩ (some "bob") "u" rfl
  have h2 := yjsUpdate_c7 c1FreshDb ⟨0, none, 0⟩ ⟨"editor"⟩ (some "eve") "u" rfl
  refine ⟨⟨?_, ?_⟩, ?_⟩
  · exact h2.1 (some ⟨"viewer"⟩) (fun i hi => by cases hi; rfl)
  · exact h2.1 none (fun i hi => by cases hi)
  · exact h.2 rfl

/-- One member of the Redis sorted set backing a rate-limit bucket: the score
is the call's timestamp in milliseconds (an integer; the Lua script receives
`windowStart = now - windowMs`, which may be negative), the member is the
unique entry id generated per call. -/
structure BucketEntry where
  score : Int
  memberId : Nat
  deriving Repr, DecidableEq

/-- Result array of the Lua script: `[allowed, current_count, remaining, reset_at]`. -/
structure ScriptResult where
  allowed : Bool
  count : Nat
  remaining : Nat
  resetAt : Int
  deriving Repr, DecidableEq

/-- Embeds `ZREMRANGEBYSCORE key 0 windowStart` (together with the fact that
live scores are positive timestamps): entries with score ≤ `windowStart` are
removed. -/
def pruneWindow (b : List BucketEntry) (windowStart : Int) : List BucketEntry :=
  b.filter (fun e => windowStart < e.score)

/-- Embeds `checkLimitScript`, the atomic Lua script of `RateLimiter`: remove
entries outside the window, count the rest; if the count already reaches the
limit, return denied WITHOUT adding an entry; otherwise add the new entry and
return allowed.  Redis runs the script atomically, so it is one transition. -/
def checkLimitScript (b : List BucketEntry) (now windowStart : Int)
    (maxRequests : Nat) (windowMs : Int) (entryId : Nat) :
    List BucketEntry × ScriptResult :=
  let pruned := pruneWindow b windowStart
  let count := pruned.length
  if maxRequests ≤ count then
    (pruned, { allowed := false, count := count, remaining := 0,
               resetAt := now + windowMs })
  else
    (pruned ++ [⟨now, entryId⟩],
     { allowed := true, count := count + 1,
       remaining := maxRequests - (count + 1), resetAt := now + windowMs })

/-- Embeds `checkLimit`'s call of the script: `windowStart = now - windowMs`. -/
def checkLimit (b : List BucketEntry) (now windowMs : Int) (maxRequests entryId : Nat) :
    List BucketEntry × ScriptResult :=
  checkLimitScript b now (now - windowMs) maxRequests windowMs entryId

/-- Run a sequence of checks (each a pair of call time and entry id) against
one bucket, threading the bucket and counting the allowed results.  Because
each script run is atomic, every interleaving of concurrent calls is some
such sequence. -/
def runChecks (windowMs : Int) (maxRequests : Nat) (b : List BucketEntry) :
    List (Int × Nat) → List BucketEntry × Nat
  | [] => (b, 0)
  | c :: rest =>
    let step := checkLimit b c.1 windowMs maxRequests c.2
    let next := runChecks windowMs maxRequests step.1 rest
    (next.1, (if step.2.allowed then 1 else 0) + next.2)

theorem runChecks_count (windowMs lo : Int) (maxRequests : Nat)
    (calls : List (Int × Nat)) :
    ∀ b : List BucketEntry, (∀ e ∈ b, lo ≤ e.score) →
    (∀ c ∈ calls, lo ≤ c.1 ∧ c.1 < lo + windowMs) →
    (runChecks windowMs maxRequests b calls).2 =
      min calls.length (maxRequests - b.length) ∧
    (∀ e ∈ (runChecks windowMs maxRequests b calls).1, lo ≤ e.score) := by
  induction calls with
  | nil => intro b hb hc; exact ⟨by simp [runChecks], by simpa [runChecks] using hb⟩
  | cons c rest ih =>
    intro b hb hc
    obtain ⟨hlo, hhi⟩ := hc c (List.mem_cons_self c rest)
    have hrest : ∀ x ∈ rest, lo ≤ x.1 ∧ x.1 < lo + windowMs :=
      fun x hx => hc x (List.mem_cons_of_mem c hx)
    have hprune : pruneWindow b (c.1 - windowMs) = b := by
      apply List.filter_eq_self.mpr
      intro e he
      have := hb e he
      simp only [decide_eq_true_eq]
      omega
    by_cases hfull : maxRequests ≤ b.length
    · have hstep : checkLimit b c.1 windowMs maxRequests c.2 =
          (b, { allowed := false, count := b.length, remaining := 0,
                resetAt := c.1 + windowMs }) := by
        simp [checkLimit, checkLimitScript, hprune, hfull]
      have ihr := ih b hb hrest
      refine ⟨?_, ?_⟩
      · show (if _ then _ else _) + _ = _
        rw [hstep]
        simp only [List.length_cons]
        rw [ihr.1]
        simp only [Bool.false_eq_true, if_false]
        omega
      · show ∀ e ∈ (runChecks windowMs maxRequests
            (checkLimit b c.1 windowMs maxRequests c.2).1 rest).1, lo ≤ e.score
        rw [hstep]
        exact ihr.2
    · have hstep : checkLimit b c.1 windowMs maxRequests c.2 =
          (b ++ [⟨c.1, c.2⟩],
           { allowed := true, count := b.length + 1,
             remaining := maxRequests - (b.length + 1),
             resetAt := c.1 + windowMs }) := by
        simp [checkLimit, checkLimitScript, hprune, hfull]
      have hb1 : ∀ e ∈ b ++ [(⟨c.1, c.2⟩ : BucketEntry)], lo ≤ e.score := by
        intro e he
        rcases List.mem_append.mp he with h | h
        · exact hb e h
        · simp at h; subst h; exact hlo
      have ihr := ih (b ++ [⟨c.1, c.2⟩]) hb1 hrest
      refine ⟨?_, ?_⟩
      · show (if _ then _ else _) + _ = _
        rw [hstep]
        simp only [List.length_cons]
        rw [ihr.1]
        simp only [if_true, List.length_append, List.length_singleton]
        omega
      · show ∀ e ∈ (runChecks windowMs maxRequests
            (checkLimit b c.1 windowMs maxRequests c.2).1 rest).1, lo ≤ e.score
        rw [hstep]
        exact ihr.2

/-- C4: for any N calls against a fresh (empty) bucket with limit L, all made
within one window (every call time lies in `[lo, lo + window)`), exactly
`min N L` of the calls are allowed.  Each script run is a single atomic
transition, so every interleaving of concurrent calls is one such sequence,
and no interleaving admits more than L allowed results. -/
theorem rateLimiter_c4 (windowMs lo : Int) (maxRequests : Nat)
    (calls : List (Int × Nat))
    (hcalls : ∀ c ∈ calls, lo ≤ c.1 ∧ c.1 < lo + windowMs) :
    (runChecks windowMs maxRequests [] calls).2 = min calls.length maxRequests := by
  have h := (runChecks_count windowMs lo maxRequests calls [] (by simp) hcalls).1
  simpa using h

/-- Witness for C4: 5 calls inside one 60000 ms window against a fresh bucket
with limit 3 yield exactly 3 allowed results. -/
theorem rateLimiter_c4_witness :
    (runChecks 60000 3 []
      [(1000, 0), (1001, 1), (1002, 2), (1003, 3), (1004, 4)]).2 = min 5 3 :=
  rateLimiter_c4 60000 1000 3 _ (by decide)

/-- C10: a denied check adds no entry — the resulting bucket is exactly the
window-pruned previous bucket, so every remaining entry was already present
and the denied call neither consumes quota nor extends the window; hence once
all previously recorded entries have aged out of the sliding window (their
score is at most `t2 - window`), the next check is allowed again (for any
positive limit), regardless of how many denied attempts happened meanwhile. -/
theorem rateLimiter_c10 (b : List BucketEntry) (now windowMs : Int)
    (maxRequests entryId : Nat)
    (hden : (checkLimit b now windowMs maxRequests entryId).2.allowed = false) :
    (checkLimit b now windowMs maxRequests entryId).1 =
      pruneWindow b (now - windowMs) ∧
    (∀ e ∈ (checkLimit b now windowMs maxRequests entryId).1, e ∈ b) ∧
    (∀ t2 : Int, ∀ id2 : Nat, 0 < maxRequests →
      (∀ e ∈ b, e.score ≤ t2 - windowMs) →
      (checkLimit b t2 windowMs maxRequests id2).2.allowed = true) := by
  refine ⟨?_, ?_, ?_⟩
  · by_cases hfull : maxRequests ≤ (pruneWindow b (now - windowMs)).length
    · simp [checkLimit, checkLimitScript, hfull]
    · exfalso
      simp [checkLimit, checkLimitScript, hfull] at hden
  · intro e he
    by_cases hfull : maxRequests ≤ (pruneWindow b (now - windowMs)).length
    · simp only [checkLimit, checkLimitScript, hfull, if_true] at he
      exact List.mem_of_mem_filter he
    · simp [checkLimit, checkLimitScript, hfull] at hden
  · intro t2 id2 hpos hold
    have hempty : pruneWindow b (t2 - windowMs) = [] := by
      apply List.filter_eq_nil_iff.mpr
      intro e he
      have := hold e he
      simp only [decide_eq_true_eq]
      omega
    simp [checkLimit, checkLimitScript, hempty, Nat.not_le.mpr hpos]

/-- Bucket holding two live entries used to instantiate the C10 theorem. -/
def c10Bucket : List BucketEntry := [⟨1000, 0⟩, ⟨1500, 1⟩]

/-- Witness for C10: with limit 2 and both entries live, a third call at time
2000 is denied, leaves the bucket as the pruned previous bucket, and a later
call after both entries aged out is allowed again. -/
theorem rateLimiter_c10_witness :
    (checkLimit c10Bucket 2000 60000 2 7).1 = pruneWindow c10Bucket (2000 - 60000) ∧
    (∀ e ∈ (checkLimit c10Bucket 2000 60000 2 7).1, e ∈ c10Bucket) ∧
    (∀ t2 : Int, ∀ id2 : Nat, 0 < 2 →
      (∀ e ∈ c10Bucket, e.score ≤ t2 - 60000) →
      (checkLimit c10Bucket t2 60000 2 id2).2.allowed = true) :=
  rateLimiter_c10 c10Bucket 2000 60000 2 7 (by decide)

/-- JS `String.prototype.includes`: the pattern occurs as a contiguous
substring. -/
def includesSub (s pat : String) : Bool :=
  decide (List.IsInfix pat.data s.data)

/-- The record returned by `RateLimiter.checkLimit` to its caller. -/
structure CheckOutcome where
  allowed : Bool
  remaining : Nat
  resetAt : Int
  errorReason : Option String
  deriving Repr, DecidableEq

/-- The fail-closed result built in `checkLimit`'s catch: denied, zero
remaining, a reset one window ahead, and an explanatory reason. -/
def failClosedOutcome (now windowMs : Int) : CheckOutcome :=
  { allowed := false, remaining := 0, resetAt := now + windowMs,
    errorReason :=
      some "Rate limit service temporarily unavailable. Please try again later." }

/-- Embeds `RateLimiter.checkLimit`'s interaction with Redis: the list holds
the outcomes of the successive `evalsha` attempts.  A successful attempt
yields its script result; an attempt failing with a NOSCRIPT error causes a
retry with a freshly loaded script (the next attempt); any other failure —
in particular a connection error while Redis is unreachable — takes the
catch's fail-closed branch.  An exhausted attempt list also fails closed. -/
def checkLimitFromRedis (now windowMs : Int) :
    List (Except String ScriptResult) → CheckOutcome
  | [] => failClosedOutcome now windowMs
  | .ok r :: _ =>
    { allowed := r.allowed, remaining := r.remaining, resetAt := r.resetAt,
      errorReason := none }
  | .error e :: rest =>
    if includesSub e "NOSCRIPT" then checkLimitFromRedis now windowMs rest
    else failClosedOutcome now windowMs

/-- C5: whenever the backing datastore is unreachable — every attempted call
to it errors — the rate-limit check returns `allowed = false` together with a
reason; it never returns `allowed = true`. -/
theorem rateLimiter_c5 (now windowMs : Int)
    (attempts : List (Except String ScriptResult))
    (hall : ∀ a ∈ attempts, ∃ e, a = .error e) :
    (checkLimitFromRedis now windowMs attempts).allowed = false ∧
    (checkLimitFromRedis now windowMs attempts).errorReason ≠ none := by
  induction attempts with
  | nil => exact ⟨rfl, by simp [checkLimitFromRedis, failClosedOutcome]⟩
  | cons a rest ih =>
    obtain ⟨e, rfl⟩ := hall a (List.mem_cons_self a rest)
    have hrest : ∀ x ∈ rest, ∃ e, x = .error e :=
      fun x hx => hall x (List.mem_cons_of_mem _ hx)
    by_cases hns : includesSub e "NOSCRIPT" = true
    · simpa [checkLimitFromRedis, hns] using ih hrest
    · simp only [Bool.not_eq_true] at hns
      simp [checkLimitFromRedis, hns, failClosedOutcome]

/-- Witness for C5: a single connection-refused attempt fails closed. -/
theorem rateLimiter_c5_witness :
    (checkLimitFromRedis 5000 60000 [.error "connect ECONNREFUSED"]).allowed
      = false ∧
    (checkLimitFromRedis 5000 60000 [.error "connect ECONNREFUSED"]).errorReason
      ≠ none :=
  rateLimiter_c5 5000 60000 [.error "connect ECONNREFUSED"]
    (fun a ha => by simp at ha; exact ⟨_, ha⟩)

/-- The module-level availability flags of the executor (`executor.js`):
`USE_DOCKER`, `dockerAvailable`, `dockerImagesReady`. -/
structure ExecutorFlags where
  useDocker : Bool
  dockerAvailable : Bool
  dockerImagesReady : Bool
  deriving Repr, DecidableEq

/-- The two execution paths of `executePython` / `executeJava`. -/
inductive ExecPath
  | docker
  | childProcess
  deriving Repr, DecidableEq

/-- Embeds the dispatch of `executePython` (identical in `executeJava`): the
Docker sandbox is used only when `USE_DOCKER && dockerAvailable &&
dockerImagesReady`; otherwise the call falls back to the child_process
implementation. -/
def executePythonPath (f : ExecutorFlags) : ExecPath :=
  if f.useDocker && f.dockerAvailable && f.dockerImagesReady then .docker
  else .childProcess

/-- Embeds the error mapping of the `POST /api/execute` handler's catch:
`error.message?.includes('Rate limit') ? 429 : 400`. -/
def executeErrorStatusCode (msg : String) : Nat :=
  if includesSub msg "Rate limit" then 429 else 400

/-- C3 counterexample: with the container engine unreachable
(`dockerAvailable = false`, images present, Docker enabled), `executePython`
runs the code through the less-isolated child_process path, and the resulting
handler error ("Failed to start Docker container ...") is returned with
status 400 — not 503 and not a `sandbox_unavailable` error — contradicting
the claim. -/
theorem execute_c3_counterexample :
    executePythonPath ⟨true, false, true⟩ = ExecPath.childProcess ∧
    executeErrorStatusCode "Execution failed: spawn docker ENOENT" = 400 := by
  constructor
  · rfl
  · decide

/-- C3 amended: whenever the container engine is unreachable or a required
executor image is absent (or Docker is disabled), execution falls back to the
less-isolated child_process path, and the execution endpoint's error responses
carry status 429 (rate limit) or 400 (anything else) — never 503. -/
theorem execute_c3_amended (f : ExecutorFlags) (msg : String)
    (h : f.dockerAvailable = false ∨ f.dockerImagesReady = false ∨
         f.useDocker = false) :
    executePythonPath f = ExecPath.childProcess ∧
    (executeErrorStatusCode msg = 429 ∨ executeErrorStatusCode msg = 400) ∧
    executeErrorStatusCode msg ≠ 503 := by
  refine ⟨?_, ?_, ?_⟩
  · unfold executePythonPath
    rcases h with h | h | h <;> simp [h]
  · unfold executeErrorStatusCode
    by_cases hm : includesSub msg "Rate limit" = true <;> simp [hm]
  · unfold executeErrorStatusCode
    by_cases hm : includesSub msg "Rate limit" = true <;> simp [hm]

/-- Witness for C3's amended theorem: engine unreachable, generic failure
message. -/
theorem execute_c3_witness :
    executePythonPath ⟨true, false, true⟩ = ExecPath.childProcess ∧
    (executeErrorStatusCode "Execution failed: spawn docker ENOENT" = 429 ∨
     executeErrorStatusCode "Execution failed: spawn docker ENOENT" = 400) ∧
    executeErrorStatusCode "Execution failed: spawn docker ENOENT" ≠ 503 :=
  execute_c3_amended ⟨true, false, true⟩ "Execution failed: spawn docker ENOENT"
    (Or.inl rfl)

/-- The snapshot policy configuration (`snapshotConfig()`):
`SNAPSHOT_EVERY_N_UPDATES`, `SNAPSHOT_EVERY_MS`, `PRUNE_UPDATES_BEFORE_SNAPSHOT`. -/
structure SnapshotCfg where
  everyN : Nat
  everyMs : Nat
  prune : Bool
  deriving Repr, DecidableEq

/-- The Hub's snapshot-trigger counters held in the doc cache. -/
structure HubCounters where
  lastSnapshotSeq : Nat
  pendingUpdates : Nat
  lastSnapshotAt : Nat
  deriving Repr, DecidableEq

/-- Embeds the trigger condition of the `yjs-update` handler:
`pendingUpdates >= everyN || now - lastSnapshotAt >= everyMs`. -/
def shouldSnapshot (cfg : SnapshotCfg) (c : HubCounters) (now : Nat) : Bool :=
  cfg.everyN ≤ c.pendingUpdates || cfg.everyMs ≤ now - c.lastSnapshotAt

/-- Outcome of one asynchronous snapshot task: the upload (or the state
encoding before it) threw, the upload returned no storage key (storage
unconfigured), `markSnapshot` threw, or everything succeeded with a key. -/
inductive SnapshotTaskOutcome
  | uploadThrew
  | noKey
  | markThrew
  | succeeded (key : String)
  deriving Repr, DecidableEq

/-- Embeds the snapshot branch of the `yjs-update` handler, restricted to the
counters: when the trigger fires and the bucket env vars are set, the task is
run; only on full success (a key was returned and `markSnapshot` committed)
are `lastSnapshotSeq`, `pendingUpdates` and `lastSnapshotAt` updated — every
failure is caught by the surrounding try/catch, which only logs a warning. -/
def snapshotStep (cfg : SnapshotCfg) (bucketConfigured : Bool) (c : HubCounters)
    (seq now : Nat) (outcome : SnapshotTaskOutcome) : HubCounters :=
  if shouldSnapshot cfg c now && bucketConfigured then
    match outcome with
    | .succeeded _ =>
      { lastSnapshotSeq := seq, pendingUpdates := 0, lastSnapshotAt := now }
    | _ => c
  else c

/-- C9: when the snapshot task fails in any way — the upload threw, no storage
key was returned, or `snapshot_mark` threw — the Hub's snapshot-trigger
counters are left exactly unchanged; and since a fired trigger stays fired at
any later time on unchanged counters, the snapshot is retried on the next
trigger. -/
theorem snapshot_c9 (cfg : SnapshotCfg) (bucketConfigured : Bool)
    (c : HubCounters) (seq now : Nat) (outcome : SnapshotTaskOutcome)
    (hfail : ∀ key, outcome ≠ .succeeded key) :
    snapshotStep cfg bucketConfigured c seq now outcome = c ∧
    (shouldSnapshot cfg c now = true →
      ∀ later, now ≤ later → shouldSnapshot cfg c later = true) := by
  constructor
  · unfold snapshotStep
    cases outcome with
    | uploadThrew => simp
    | noKey => simp
    | markThrew => simp
    | succeeded key => exact absurd rfl (hfail key)
  · intro hfire later hle
    simp only [shouldSnapshot, Bool.or_eq_true, decide_eq_true_eq] at hfire ⊢
    omega

/-- Witness for C9: a fired trigger (4 pending ≥ everyN 3) whose upload throws
leaves the counters unchanged and stays fired later. -/
theorem snapshot_c9_witness :
    snapshotStep ⟨3, 30000, false⟩ true ⟨0, 4, 100⟩ 4 200
      SnapshotTaskOutcome.uploadThrew = ⟨0, 4, 100⟩ ∧
    (shouldSnapshot ⟨3, 30000, false⟩ ⟨0, 4, 100⟩ 200 = true →
      ∀ later, 200 ≤ later →
        shouldSnapshot ⟨3, 30000, false⟩ ⟨0, 4, 100⟩ later = true) :=
  snapshot_c9 ⟨3, 30000, false⟩ true ⟨0, 4, 100⟩ 4 200
    SnapshotTaskOutcome.uploadThrew (fun key h => by cases h)

end CollabEditor
